import Mathlib

/-!
Verification development for the nlargest-cli repository (src/n_largest.py).

The Python source is shallowly embedded below.  Pure helpers of the source keep
their names (process_file, print_n_largest, id_number_tuple_generator,
split_generator, get_remote_file, make_range_header, get).  Stateful behaviour
(the HTTP fetch loop, the on-disk cache file) is modelled by explicit state:
the server is a list of responses to the successive range requests, and the
cache file at cache_root / sha256(url).gz is a `CacheFile` value.

External libraries used by the source are modelled by the contract the source
relies on:
* gzip (Python stdlib): an invertible codec; a cache file is represented by its
  decompressed logical content.
* heapq.nlargest (Python stdlib): per its documented contract, equivalent to
  sorting the stream descending by the key (the Python sort is stable) and taking
  the first n elements.
* hashlib.sha256 hexdigest (Python stdlib): a fixed deterministic function from
  the url string to a lowercase hex string; a simple deterministic 64-hex-digit
  digest stands in for the compression function, which no claim depends on.
* requests (third party): requests.codes.range_not_satisfiable = 416,
  requests.codes.ok = 200, and Response.raise_for_status raises exactly for
  status codes in [400, 600).
-/

namespace NLargest

/-- A record of the data file: an id paired with the parsed integer value
(src/n_largest.py line 133 builds exactly such pairs). -/
abbrev Record := String × Int

/-- Whitespace characters recognised by Python str.strip() and the regex \s on
the ASCII range (space, tab, newline, carriage return, vertical tab, form
feed).  The source only ever feeds it text lines. -/
def isSpaceCh (c : Char) : Bool :=
  c == ' ' || c == '\t' || c == '\n' || c == '\r' || c == '\x0b' || c == '\x0c'

/-- Python str.strip(): drop leading and trailing whitespace
(src/n_largest.py line 141 applies it to each decoded line). -/
def pyStrip (s : String) : String :=
  String.mk (((s.data.dropWhile isSpaceCh).reverse.dropWhile isSpaceCh).reverse)

/-- Worker for `reSplitWs`: walks the characters, accumulating the current
token (reversed); a whitespace character that does not extend a previous
whitespace run emits the accumulated token. -/
def splitWsAux : List Char → Bool → List Char → List String
  | [], _, acc => [String.mk acc.reverse]
  | c :: cs, prevSpace, acc =>
    if isSpaceCh c then
      if prevSpace then splitWsAux cs true acc
      else String.mk acc.reverse :: splitWsAux cs true []
    else splitWsAux cs false (c :: acc)

/-- Python re.split on the pattern of one-or-more whitespace characters
(src/n_largest.py line 141): splits on maximal whitespace runs, producing an
empty piece before a leading run and after a trailing run, and producing the
single piece "" on the empty string. -/
def reSplitWs (s : String) : List String :=
  splitWsAux s.data false []

/-- Worker for `readLines`: accumulates the current line (reversed); a newline
terminates the line and is kept, matching file.readline(); a final chunk
without a newline is still yielded, and nothing is yielded at end of input. -/
def readLinesAux : List Char → List Char → List String
  | [], acc => if acc = [] then [] else [String.mk acc.reverse]
  | c :: cs, acc =>
    if c = '\n' then String.mk (c :: acc).reverse :: readLinesAux cs []
    else readLinesAux cs (c :: acc)

/-- The sequence of lines produced by repeated file.readline() calls until a
falsy (empty) result (src/n_largest.py lines 137-140). -/
def readLines (content : String) : List String :=
  readLinesAux content.data []

/-- Numeric value of a decimal digit character, none otherwise. -/
def digitVal? (c : Char) : Option Nat :=
  if c.isDigit then some (c.toNat - 48) else none

/-- Value of a nonempty run of decimal digits, none on the empty list or any
non-digit character. -/
def digitsVal? (cs : List Char) : Option Nat :=
  match cs with
  | [] => none
  | _ =>
    cs.foldl
      (fun acc c =>
        match acc, digitVal? c with
        | some n, some d => some (n * 10 + d)
        | _, _ => none)
      (some 0)

/-- Python int() applied to a token already stripped of surrounding
whitespace (src/n_largest.py line 133): an optional single sign followed by a
nonempty run of decimal digits.  (Underscore digit grouping and non-ASCII
digits, which the Python int() also accepts, are outside the data model of this
repository and not exercised by any claim.) -/
def pyInt? (s : String) : Option Int :=
  match s.data with
  | '-' :: rest => (digitsVal? rest).map (fun n => -(n : Int))
  | '+' :: rest => (digitsVal? rest).map (fun n => (n : Int))
  | _ => (digitsVal? s.data).map (fun n => (n : Int))

/-- Errors of the record decoder.  In the source both surface as Python
ValueError: unpacking a token list whose length is not two at the for pattern
of line 132, or int() failing on the second token at line 133.  The spec calls
these ParseError. -/
inductive ParseErr where
  | badUnpack (tokens : List String)
  | badInt (token : String)
deriving DecidableEq

/-- split_generator (src/n_largest.py lines 136-141): yields, for every line
of the file, the whitespace-run split of the stripped line. -/
def split_generator (content : String) : List (List String) :=
  (readLines content).map (fun line => reSplitWs (pyStrip line))

/-- One step of id_number_tuple_generator (src/n_largest.py lines 131-133):
the for pattern unpacks exactly two tokens (raising otherwise), then int()
parses the second token. -/
def decodeRecord : List String → Except ParseErr Record
  | [a, b] =>
    match pyInt? b with
    | some v => Except.ok (a, v)
    | none => Except.error (ParseErr.badInt b)
  | ts => Except.error (ParseErr.badUnpack ts)

/-- id_number_tuple_generator (src/n_largest.py lines 131-133) over the whole
decompressed file content; the generator is consumed in full by
heapq.nlargest, so the error of the first malformed line is the result. -/
def id_number_tuple_generator (content : String) : Except ParseErr (List Record) :=
  (split_generator content).mapM decodeRecord

/-- Descending order on records by value; `valGe a b` states that the value of a is
at least the value of b. -/
def valGe (a b : Record) : Prop := b.2 ≤ a.2

/-- Stable insertion of a record into a value-descending list: the record goes
after every already-present record of greater-or-equal value, so earlier
(first-seen) records of an equal value keep precedence. -/
def insertDesc (r : Record) : List Record → List Record
  | [] => [r]
  | x :: xs => if r.2 ≤ x.2 then x :: insertDesc r xs else r :: x :: xs

/-- Stable sort of the records descending by value: each record of the stream
is inserted, in stream order, behind its equal-valued predecessors. -/
def sortDesc (rs : List Record) : List Record :=
  rs.foldl (fun acc r => insertDesc r acc) []

/-- heapq.nlargest with key=itemgetter(1) (Python stdlib, called at
src/n_largest.py line 123), per its documented contract: equivalent to sorting
the iterable by the key in reverse (the Python sort is stable, and reverse=True
keeps equal keys in first-seen order) and taking the first n elements. -/
def nlargest (n : Nat) (rs : List Record) : List Record :=
  (sortDesc rs).take n

/-- process_file (src/n_largest.py lines 122-123) over the decompressed cache
file content. -/
def process_file (content : String) (n : Nat) : Except ParseErr (List Record) :=
  (id_number_tuple_generator content).map (nlargest n)

/-- print_n_largest (src/n_largest.py lines 126-128): the ids echoed to
stdout, one per record, in list order. -/
def print_n_largest (n_largest : List Record) : List String :=
  n_largest.map Prod.fst

/-- HTTP status requests.codes.range_not_satisfiable of the external requests
library. -/
def range_not_satisfiable : Nat := 416

/-- HTTP status requests.codes.ok of the external requests library. -/
def codes_ok : Nat := 200

/-- Modelled from the spec: SUCCESS_STATUS is imported from constants.py,
which is not under src/.  The RangeFetcher contract of the spec names a 206 Partial
Content-equivalent status as the success case that yields a chunk. -/
def SUCCESS_STATUS : Nat := 206

/-- Modelled from the spec: FILE_START is imported from constants.py, which is
not under src/.  The RangeWindow offset of the spec starts at 0. -/
def FILE_START : Nat := 0

/-- The Range header name (src/n_largest.py line 14). -/
def RANGE_HEADER : String := "Range"

/-- make_range_header (src/n_largest.py lines 170-171): the header dict with
the single entry Range: bytes=start-end, where end = start + chunk_size
(inclusive). -/
def make_range_header (current_chunk chunk_size : Nat) : String × String :=
  (RANGE_HEADER,
    "bytes=" ++ toString current_chunk ++ "-" ++ toString (current_chunk + chunk_size))

/-- One HTTP response of the remote server: the status code and the body text
(the source reads req.text and writes its encoding). -/
structure Response where
  status : Nat
  body : String
deriving DecidableEq

/-- How the fetch loop of get_remote_file ended. -/
inductive FetchOutcome where
  /-- The loop condition saw range_not_satisfiable: normal termination. -/
  | ok
  /-- A 200 OK response: the source raises requests.exceptions.HTTPError with
  the message that the host does not support Range headers (called
  UnsupportedRangeError by the spec), src/n_largest.py lines 157-159. -/
  | unsupportedRange
  /-- req.raise_for_status() raised for a status in [400, 600),
  src/n_largest.py line 160. -/
  | httpError (status : Nat)
  /-- Model artifact: the response list was exhausted before a terminal
  status; the real loop would still be issuing requests. -/
  | outOfResponses
deriving DecidableEq

/-- Trace of one run of the fetch loop: the offsets of the issued range
requests in order, the corresponding Range headers, the chunk bodies written
to the gzip file in order, and how the loop ended. -/
structure FetchTrace where
  offsets : List Nat
  headers : List (String × String)
  written : List String
  outcome : FetchOutcome
deriving DecidableEq

/-- The while loop of get_remote_file (src/n_largest.py lines 151-163) against
a server modelled as the list of responses to the successive range requests.
Each consumed response answers one GET carrying
make_range_header(current_chunk, chunk_size); after a response that is neither
terminal nor an error the offset advances by chunk_size + 1.  A 206 response
has its body written; any other non-terminal, non-200, non-[400,600) status
falls through raise_for_status without writing and the loop advances. -/
def fetchLoop (chunk_size : Nat) : Nat → List Response → FetchTrace
  | _, [] => ⟨[], [], [], FetchOutcome.outOfResponses⟩
  | off, r :: rest =>
    if r.status = range_not_satisfiable then
      ⟨[off], [make_range_header off chunk_size], [], FetchOutcome.ok⟩
    else if r.status = SUCCESS_STATUS then
      let t := fetchLoop chunk_size (off + (chunk_size + 1)) rest
      ⟨off :: t.offsets, make_range_header off chunk_size :: t.headers,
        r.body :: t.written, t.outcome⟩
    else if r.status = codes_ok then
      ⟨[off], [make_range_header off chunk_size], [], FetchOutcome.unsupportedRange⟩
    else if 400 ≤ r.status ∧ r.status < 600 then
      ⟨[off], [make_range_header off chunk_size], [], FetchOutcome.httpError r.status⟩
    else
      let t := fetchLoop chunk_size (off + (chunk_size + 1)) rest
      ⟨off :: t.offsets, make_range_header off chunk_size :: t.headers,
        t.written, t.outcome⟩

/-- A response on which the fetch loop advances to a further request: not the
terminal 416, not the fatal 200, and not a raise_for_status error. -/
def advances (r : Response) : Bool :=
  decide (r.status ≠ range_not_satisfiable ∧ r.status ≠ codes_ok
    ∧ ¬(400 ≤ r.status ∧ r.status < 600))

/-- Lowercase hexadecimal digit characters. -/
def hexChar (n : Nat) : Char :=
  if n < 10 then Char.ofNat (48 + n) else Char.ofNat (87 + n)

/-- Big-endian fixed-width hexadecimal rendering. -/
def natToHexAux : Nat → Nat → List Char → List Char
  | 0, _, acc => acc
  | d + 1, n, acc => natToHexAux d (n / 16) (hexChar (n % 16) :: acc)

/-- 64 lowercase hex digits of a natural number below 2^256. -/
def natToHex64 (n : Nat) : String :=
  String.mk (natToHexAux 64 n [])

/-- Models hashlib.sha256(url.encode()).hexdigest() of the Python standard
library (external to this repository) by the only contract the source relies
on: a fixed deterministic function from the url string to a 64-character
lowercase hex digest.  A simple deterministic folding digest stands in for the
SHA-256 compression function, whose internals no claim depends on. -/
def sha256_hexdigest (url : String) : String :=
  natToHex64 (url.data.foldl (fun h c => (h * 65599 + c.toNat) % (2 ^ 256)) 5381)

/-- The cache entry name computed at src/n_largest.py line 146: the hex digest
of the url followed by the .gz suffix. -/
def cacheFileName (url : String) : String :=
  sha256_hexdigest url ++ ".gz"

/-- State of the file at cache_root / cacheFileName url.  gzip compression is
modelled by the content it codes for, so `complete` carries the decompressed
logical content of a flushed, fsynced and closed cache file
(src/n_largest.py lines 164-166). -/
inductive CacheFile where
  /-- No file at the path. -/
  | absent
  /-- A fully written cache file: flushed, fsynced and closed after the fetch
  loop terminated normally; the decompressed content is carried. -/
  | complete (content : String)
  /-- A file created by gzip.open(cache_file, wb+) whose fetch aborted with
  an exception before the flush/close of lines 164-166 ran; the path is
  occupied but the file is not a completed gzip stream.  The chunk bodies
  written before the abort are carried. -/
  | leftover (written : List String)
deriving DecidableEq

/-- Path existence check, as performed by cache_file.exists() at
src/n_largest.py line 148: any file at the path counts, complete or not. -/
def CacheFile.existsOnDisk : CacheFile → Bool
  | CacheFile.absent => false
  | _ => true

/-- Reading the cache file back through gzip.open(.., rb) as the get command
does at src/n_largest.py line 63: only a complete cache file yields its
content; an absent path or an unterminated gzip stream fails. -/
def CacheFile.read? : CacheFile → Option String
  | CacheFile.complete c => some c
  | _ => none

/-- Fatal results of get_remote_file. -/
inductive FetchError where
  | unsupportedRange
  | httpError (status : Nat)
  | outOfResponses
deriving DecidableEq

/-- Result of get_remote_file: the state of the cache path afterwards, the
range-request offsets and headers actually issued, and the returned file name
or the exception raised. -/
structure RemoteFetch where
  cacheAfter : CacheFile
  offsets : List Nat
  headers : List (String × String)
  outcome : Except FetchError String

/-- get_remote_file (src/n_largest.py lines 144-167).  On a cache hit without
forced refresh the file name is returned with no request issued.  Otherwise
gzip.open creates (or truncates) the file at the cache path before the first
request; a normally terminated loop flushes, fsyncs and closes the file,
making it a complete entry holding the concatenated chunk bodies; an aborted
loop propagates the exception, leaving the created file at the path unflushed
and unclosed. -/
def get_remote_file (url : String) (chunk_size : Nat) (cache : CacheFile)
    (should_refresh : Bool) (responses : List Response) : RemoteFetch :=
  if cache.existsOnDisk && !should_refresh then
    ⟨cache, [], [], Except.ok (cacheFileName url)⟩
  else
    let t := fetchLoop chunk_size FILE_START responses
    match t.outcome with
    | FetchOutcome.ok =>
        ⟨CacheFile.complete (String.join t.written), t.offsets, t.headers,
          Except.ok (cacheFileName url)⟩
    | FetchOutcome.unsupportedRange =>
        ⟨CacheFile.leftover t.written, t.offsets, t.headers,
          Except.error FetchError.unsupportedRange⟩
    | FetchOutcome.httpError s =>
        ⟨CacheFile.leftover t.written, t.offsets, t.headers,
          Except.error (FetchError.httpError s)⟩
    | FetchOutcome.outOfResponses =>
        ⟨CacheFile.leftover t.written, t.offsets, t.headers,
          Except.error FetchError.outOfResponses⟩

/-- Errors surfaced by the get command. -/
inductive GetErr where
  /-- get_remote_file raised. -/
  | fetch (e : FetchError)
  /-- gzip.open / readline failed on the file at the cache path. -/
  | readFailed
  /-- A malformed record line (Python ValueError) during selection. -/
  | parse (e : ParseErr)
deriving DecidableEq

/-- Observable result of one invocation of the get command: the ids echoed to
stdout, the final state of the cache path, the range-request offsets issued
over the network, and normal or exceptional termination. -/
structure GetRun where
  output : List String
  cacheAfter : CacheFile
  offsets : List Nat
  outcome : Except GetErr Unit

/-- The get command (src/n_largest.py lines 39-68), from the point the cache
root is known (config handling is an external collaborator per the spec):
ensure the cache entry via get_remote_file, open and decode it, select with
process_file, echo the ids, and only then, if --no-cache was passed, remove
the cache entry.  Any exception on the way leaves the cache path as
get_remote_file left it. -/
def get (no_cache refresh_cache : Bool) (chunk_size : Nat) (url : String)
    (n : Nat) (cache : CacheFile) (responses : List Response) : GetRun :=
  let rf := get_remote_file url chunk_size cache refresh_cache responses
  match rf.outcome with
  | Except.error e => ⟨[], rf.cacheAfter, rf.offsets, Except.error (GetErr.fetch e)⟩
  | Except.ok _ =>
    match rf.cacheAfter.read? with
    | none => ⟨[], rf.cacheAfter, rf.offsets, Except.error GetErr.readFailed⟩
    | some content =>
      match process_file content n with
      | Except.error pe => ⟨[], rf.cacheAfter, rf.offsets, Except.error (GetErr.parse pe)⟩
      | Except.ok recs =>
          ⟨print_n_largest recs,
            if no_cache then CacheFile.absent else rf.cacheAfter,
            rf.offsets, Except.ok ()⟩

/-! ## Properties of the stable descending selection (TopNSelector) -/

theorem insertDesc_length (r : Record) : ∀ l : List Record,
    (insertDesc r l).length = l.length + 1 := by
  intro l
  induction l with
  | nil => rfl
  | cons x xs ih =>
    simp only [insertDesc]
    split
    · simp [ih]
    · simp

theorem mem_insertDesc {a r : Record} : ∀ {l : List Record},
    a ∈ insertDesc r l → a = r ∨ a ∈ l := by
  intro l
  induction l with
  | nil =>
    intro h
    simp only [insertDesc, List.mem_singleton] at h
    exact Or.inl h
  | cons x xs ih =>
    intro h
    simp only [insertDesc] at h
    split at h
    · rcases List.mem_cons.mp h with h1 | h2
      · exact Or.inr (List.mem_cons.mpr (Or.inl h1))
      · rcases ih h2 with h3 | h4
        · exact Or.inl h3
        · exact Or.inr (List.mem_cons.mpr (Or.inr h4))
    · rcases List.mem_cons.mp h with h1 | h2
      · exact Or.inl h1
      · exact Or.inr h2

theorem pairwise_insertDesc {r : Record} : ∀ {l : List Record},
    List.Pairwise valGe l → List.Pairwise valGe (insertDesc r l) := by
  intro l
  induction l with
  | nil =>
    intro _
    simp [insertDesc]
  | cons x xs ih =>
    intro h
    rcases List.pairwise_cons.mp h with ⟨hx, hxs⟩
    simp only [insertDesc]
    split
    · rename_i hle
      refine List.pairwise_cons.mpr ⟨?_, ih hxs⟩
      intro y hy
      rcases mem_insertDesc hy with rfl | hyxs
      · exact hle
      · exact hx y hyxs
    · rename_i hgt
      push_neg at hgt
      refine List.pairwise_cons.mpr ⟨?_, h⟩
      intro y hy
      rcases List.mem_cons.mp hy with rfl | hyxs
      · exact le_of_lt hgt
      · exact le_trans (hx y hyxs) (le_of_lt hgt)

theorem insertDesc_filter_ne {r : Record} {v : Int} (hv : ¬ r.2 = v) :
    ∀ l : List Record,
      (insertDesc r l).filter (fun x => x.2 == v) = l.filter (fun x => x.2 == v) := by
  intro l
  induction l with
  | nil => simp [insertDesc, List.filter_cons, hv]
  | cons x xs ih =>
    simp only [insertDesc]
    split
    · simp [List.filter_cons, ih]
    · simp [List.filter_cons, hv]

theorem insertDesc_filter_eq {r : Record} {v : Int} (hv : r.2 = v) :
    ∀ l : List Record, List.Pairwise valGe l →
      (insertDesc r l).filter (fun x => x.2 == v)
        = l.filter (fun x => x.2 == v) ++ [r] := by
  intro l
  induction l with
  | nil =>
    intro _
    simp [insertDesc, List.filter_cons, hv]
  | cons x xs ih =>
    intro h
    rcases List.pairwise_cons.mp h with ⟨hx, hxs⟩
    simp only [insertDesc]
    split
    · rename_i hle
      by_cases hxv : x.2 = v
      · simp [List.filter_cons, hxv, ih hxs]
      · simp [List.filter_cons, hxv, ih hxs]
    · rename_i hgt
      push_neg at hgt
      have hxv : x.2 < v := hv ▸ hgt
      have hnil : (x :: xs).filter (fun x => x.2 == v) = [] := by
        rw [List.filter_eq_nil_iff]
        intro a ha
        rcases List.mem_cons.mp ha with rfl | haxs
        · simp only [beq_iff_eq]
          omega
        · have hax := hx a haxs
          simp only [beq_iff_eq]
          have : a.2 ≤ x.2 := hax
          omega
      simp [List.filter_cons, hv, hnil]

theorem sortLoop_length : ∀ (rs acc : List Record),
    (rs.foldl (fun acc r => insertDesc r acc) acc).length = acc.length + rs.length := by
  intro rs
  induction rs with
  | nil => intro acc; simp
  | cons r rs ih =>
    intro acc
    simp only [List.foldl_cons]
    rw [ih, insertDesc_length]
    simp only [List.length_cons]
    omega

theorem sortLoop_pairwise : ∀ (rs acc : List Record),
    List.Pairwise valGe acc →
    List.Pairwise valGe (rs.foldl (fun acc r => insertDesc r acc) acc) := by
  intro rs
  induction rs with
  | nil => intro acc h; simpa using h
  | cons r rs ih =>
    intro acc h
    simp only [List.foldl_cons]
    exact ih _ (pairwise_insertDesc h)

theorem sortLoop_filter (v : Int) : ∀ (rs acc : List Record),
    List.Pairwise valGe acc →
    (rs.foldl (fun acc r => insertDesc r acc) acc).filter (fun x => x.2 == v)
      = acc.filter (fun x => x.2 == v) ++ rs.filter (fun x => x.2 == v) := by
  intro rs
  induction rs with
  | nil => intro acc h; simp
  | cons r rs ih =>
    intro acc h
    simp only [List.foldl_cons]
    rw [ih _ (pairwise_insertDesc h)]
    by_cases hv : r.2 = v
    · rw [insertDesc_filter_eq hv _ h]
      simp [List.filter_cons, hv]
    · rw [insertDesc_filter_ne hv]
      simp [List.filter_cons, hv]

theorem sortDesc_length (rs : List Record) : (sortDesc rs).length = rs.length := by
  simpa using sortLoop_length rs []

theorem sortDesc_pairwise (rs : List Record) : List.Pairwise valGe (sortDesc rs) :=
  sortLoop_pairwise rs [] List.Pairwise.nil

theorem sortDesc_filter (rs : List Record) (v : Int) :
    (sortDesc rs).filter (fun x => x.2 == v) = rs.filter (fun x => x.2 == v) := by
  simpa using sortLoop_filter v rs [] List.Pairwise.nil

theorem filter_take_exists {α : Type} (l : List α) (p : α → Bool) (n : Nat) :
    ∃ k, (l.take n).filter p = (l.filter p).take k := by
  refine ⟨((l.take n).filter p).length, ?_⟩
  have h2 : (l.take n).filter p ++ (l.drop n).filter p = l.filter p := by
    rw [← List.filter_append, List.take_append_drop]
  rw [← h2, List.take_left]

/-- C1: for every n ≥ 1 and every record stream, the top-N selection returns
min(n, L) records ordered descending by value with ties kept in stable
first-seen order (records of any fixed value appear as a prefix of their
first-seen order in the stream), and on the stream parsed from
"a 5\nb 9\nb2 9\nc 1\n" with n = 2 the emitted ids are exactly the two
records of value 9, in first-seen order, never a or c. -/
theorem C1_top_n_selection (n : Nat) (rs : List Record) (_hn : 1 ≤ n) :
    (nlargest n rs).length = min n rs.length
    ∧ List.Pairwise valGe (nlargest n rs)
    ∧ (∀ v : Int, ∃ k, (nlargest n rs).filter (fun r => r.2 == v)
        = (rs.filter (fun r => r.2 == v)).take k)
    ∧ (process_file "a 5\nb 9\nb2 9\nc 1\n" 2).map print_n_largest
        = Except.ok ["b", "b2"] := by
  refine ⟨?_, ?_, ?_, ?_⟩
  · rw [nlargest, List.length_take, sortDesc_length]
  · exact List.Pairwise.sublist (List.take_sublist n (sortDesc rs)) (sortDesc_pairwise rs)
  · intro v
    obtain ⟨k, hk⟩ := filter_take_exists (sortDesc rs) (fun r => r.2 == v) n
    exact ⟨k, by rw [nlargest, hk, sortDesc_filter]⟩
  · rfl

/-- Witness for C1 at n = 2 on a concrete stream. -/
theorem C1_top_n_selection_witness :
    1 ≤ 2 ∧ (nlargest 2 [("a", (5 : Int)), ("b", 9), ("b2", 9), ("c", 1)]).length
      = min 2 ([("a", (5 : Int)), ("b", 9), ("b2", 9), ("c", 1)] : List Record).length :=
  ⟨by decide, (C1_top_n_selection 2 [("a", 5), ("b", 9), ("b2", 9), ("c", 1)] (by decide)).1⟩

/-! ## Properties of the fetch loop (RangeFetcher / CacheStore) -/

theorem advances_of_success {r : Response} (h : r.status = SUCCESS_STATUS) :
    advances r = true := by
  unfold advances
  rw [h]
  decide

theorem advances_spec {r : Response} (h : advances r = true) :
    r.status ≠ range_not_satisfiable ∧ r.status ≠ codes_ok
      ∧ ¬(400 ≤ r.status ∧ r.status < 600) :=
  of_decide_eq_true h

theorem off_step (off cs n : Nat) :
    off + (cs + 1) + n * (cs + 1) = off + (n + 1) * (cs + 1) := by
  ring

theorem range_map_shift {α : Type} (f : Nat → α) (n : Nat) :
    (List.range (n + 1)).map f = f 0 :: (List.range n).map (fun k => f (k + 1)) := by
  rw [List.range_succ_eq_map]
  simp [List.map_map, Function.comp]

theorem map_offset_shift (off cs n : Nat) :
    (List.range n).map (fun k => off + (cs + 1) + k * (cs + 1))
      = (List.range n).map (fun k => off + (k + 1) * (cs + 1)) := by
  rw [List.map_inj_left]
  intro k _
  ring

/-- Running the fetch loop over a prefix of responses on which the loop always
advances (a 206 chunk or another non-terminal, non-fatal status): the prefix
contributes one request per response at offsets advancing by chunk_size + 1,
writes exactly the bodies of its 206 responses in order, and the loop
continues behind the prefix with the accordingly advanced offset. -/
theorem fetchLoop_append (cs : Nat) (rest : List Response) :
    ∀ (pre : List Response) (off : Nat), (∀ x ∈ pre, advances x = true) →
    (fetchLoop cs off (pre ++ rest)).offsets
        = (List.range pre.length).map (fun k => off + k * (cs + 1))
          ++ (fetchLoop cs (off + pre.length * (cs + 1)) rest).offsets
    ∧ (fetchLoop cs off (pre ++ rest)).written
        = (pre.filter (fun x => x.status == SUCCESS_STATUS)).map Response.body
          ++ (fetchLoop cs (off + pre.length * (cs + 1)) rest).written
    ∧ (fetchLoop cs off (pre ++ rest)).outcome
        = (fetchLoop cs (off + pre.length * (cs + 1)) rest).outcome := by
  intro pre
  induction pre with
  | nil => intro off _; simp
  | cons x pre ih =>
    intro off h
    obtain ⟨h416, h200, h45⟩ := advances_spec (h x (List.mem_cons_self x pre))
    have hpre : ∀ y ∈ pre, advances y = true := fun y hy => h y (List.mem_cons_of_mem x hy)
    obtain ⟨io, iw, iout⟩ := ih (off + (cs + 1)) hpre
    by_cases h206 : x.status = SUCCESS_STATUS
    · simp only [List.cons_append, fetchLoop, if_neg h416, if_pos h206, List.append_eq]
      refine ⟨?_, ?_, ?_⟩
      · simp only [List.length_cons]
        rw [io, map_offset_shift, off_step, range_map_shift, List.cons_append]
        simp
      · simp only [List.length_cons]
        rw [iw, off_step]
        simp [List.filter_cons, h206]
      · simp only [List.length_cons]
        rw [iout, off_step]
    · simp only [List.cons_append, fetchLoop, if_neg h416, if_neg h206, if_neg h200,
        if_neg h45, List.append_eq]
      refine ⟨?_, ?_, ?_⟩
      · simp only [List.length_cons]
        rw [io, map_offset_shift, off_step, range_map_shift, List.cons_append]
        simp
      · simp only [List.length_cons]
        rw [iw, off_step]
        simp [List.filter_cons, h206]
      · simp only [List.length_cons]
        rw [iout, off_step]

/-- The offsets requested by the fetch loop form the arithmetic progression
that starts at the initial offset and advances by chunk_size + 1. -/
theorem fetchLoop_offsets_arith (cs : Nat) : ∀ (rs : List Response) (off : Nat),
    (fetchLoop cs off rs).offsets
      = (List.range (fetchLoop cs off rs).offsets.length).map
          (fun k => off + k * (cs + 1)) := by
  intro rs
  induction rs with
  | nil => intro off; simp [fetchLoop]
  | cons r rest ih =>
    intro off
    simp only [fetchLoop]
    split
    · simp [List.range_succ]
    · split
      · simp only [List.length_cons]
        rw [range_map_shift, ← map_offset_shift, ← ih (off + (cs + 1))]
        simp
      · split
        · simp [List.range_succ]
        · split
          · simp [List.range_succ]
          · simp only [List.length_cons]
            rw [range_map_shift, ← map_offset_shift, ← ih (off + (cs + 1))]
            simp

/-- Every request issued by the fetch loop carries the Range header built by
make_range_header at the offset of that request. -/
theorem fetchLoop_headers_eq (cs : Nat) : ∀ (rs : List Response) (off : Nat),
    (fetchLoop cs off rs).headers
      = (fetchLoop cs off rs).offsets.map (fun o => make_range_header o cs) := by
  intro rs
  induction rs with
  | nil => intro off; simp [fetchLoop]
  | cons r rest ih =>
    intro off
    simp only [fetchLoop]
    split
    · simp
    · split
      · simp [ih (off + (cs + 1))]
      · split
        · simp
        · split
          · simp
          · simp [ih (off + (cs + 1))]

theorem chain_arith (cs off : Nat) : ∀ n : Nat,
    List.Chain' (fun a b => b = a + (cs + 1))
      ((List.range n).map (fun k => off + k * (cs + 1))) := by
  intro n
  rw [List.chain'_map]
  cases n with
  | zero => simp
  | succ m =>
    rw [List.chain'_range_succ]
    intro k _
    simp only [Nat.succ_eq_add_one]
    ring

/-- If the fetch loop of get_remote_file on a cache miss terminates normally,
the cache path afterwards holds a complete entry with the concatenated
written chunks, and the computed file name is returned. -/
theorem get_remote_file_absent_ok (url : String) (cs : Nat) (refresh : Bool)
    (responses : List Response)
    (h : (fetchLoop cs FILE_START responses).outcome = FetchOutcome.ok) :
    get_remote_file url cs CacheFile.absent refresh responses
      = ⟨CacheFile.complete (String.join (fetchLoop cs FILE_START responses).written),
         (fetchLoop cs FILE_START responses).offsets,
         (fetchLoop cs FILE_START responses).headers,
         Except.ok (cacheFileName url)⟩ := by
  simp only [get_remote_file, CacheFile.existsOnDisk, Bool.false_and, Bool.false_eq_true,
    if_false, h]

/-- C4: if some range request is answered with the 200 OK status while every
earlier response let the loop advance, the fetch aborts there with the
unsupported-range error: the body of the 200 response is not written (only
bodies of earlier 206 responses are) and no further request is issued (the
request count is the prefix length plus the aborted request). -/
theorem C4_abort_on_200 (cs : Nat) (pre rest : List Response) (r : Response)
    (hpre : ∀ x ∈ pre, advances x = true) (h200 : r.status = codes_ok) :
    (fetchLoop cs FILE_START (pre ++ r :: rest)).outcome = FetchOutcome.unsupportedRange
    ∧ (fetchLoop cs FILE_START (pre ++ r :: rest)).written
        = (pre.filter (fun x => x.status == SUCCESS_STATUS)).map Response.body
    ∧ (fetchLoop cs FILE_START (pre ++ r :: rest)).offsets.length = pre.length + 1 := by
  obtain ⟨io, iw, iout⟩ := fetchLoop_append cs (r :: rest) pre FILE_START hpre
  have h416 : ¬ r.status = range_not_satisfiable := by rw [h200]; decide
  have h206 : ¬ r.status = SUCCESS_STATUS := by rw [h200]; decide
  have htail : fetchLoop cs (FILE_START + pre.length * (cs + 1)) (r :: rest)
      = ⟨[FILE_START + pre.length * (cs + 1)],
         [make_range_header (FILE_START + pre.length * (cs + 1)) cs], [],
         FetchOutcome.unsupportedRange⟩ := by
    simp only [fetchLoop, if_neg h416, if_neg h206, if_pos h200]
  refine ⟨?_, ?_, ?_⟩
  · rw [iout, htail]
  · rw [iw, htail]
    simp
  · rw [io, htail]
    simp

/-- Witness for C4: one 206 chunk, then a 200 response. -/
theorem C4_abort_on_200_witness :
    (fetchLoop 1024 FILE_START
        ([⟨206, "aa"⟩] ++ (⟨200, "whole"⟩ : Response) :: [])).outcome
      = FetchOutcome.unsupportedRange :=
  (C4_abort_on_200 1024 [⟨206, "aa"⟩] [] ⟨200, "whole"⟩ (by decide) rfl).1

/-- C5: a successful fetch whose chunks all arrived with the 206
partial-content status stores, at the cache path for the url, a complete
entry whose decompressed content is the concatenation of the chunk bodies in
offset order, and returns the computed file name. -/
theorem C5_roundtrip (url : String) (cs : Nat) (refresh : Bool)
    (pre rest : List Response) (r : Response)
    (hpre : ∀ x ∈ pre, x.status = SUCCESS_STATUS)
    (hr : r.status = range_not_satisfiable) :
    (get_remote_file url cs CacheFile.absent refresh (pre ++ r :: rest)).outcome
        = Except.ok (cacheFileName url)
    ∧ (get_remote_file url cs CacheFile.absent refresh (pre ++ r :: rest)).cacheAfter
        = CacheFile.complete (String.join (pre.map Response.body)) := by
  have hadv : ∀ x ∈ pre, advances x = true := fun x hx => advances_of_success (hpre x hx)
  obtain ⟨io, iw, iout⟩ := fetchLoop_append cs (r :: rest) pre FILE_START hadv
  have htail : fetchLoop cs (FILE_START + pre.length * (cs + 1)) (r :: rest)
      = ⟨[FILE_START + pre.length * (cs + 1)],
         [make_range_header (FILE_START + pre.length * (cs + 1)) cs], [],
         FetchOutcome.ok⟩ := by
    simp only [fetchLoop, if_pos hr]
  have houtcome : (fetchLoop cs FILE_START (pre ++ r :: rest)).outcome = FetchOutcome.ok := by
    rw [iout, htail]
  have hfilter : pre.filter (fun x => x.status == SUCCESS_STATUS) = pre := by
    rw [List.filter_eq_self]
    intro a ha
    simp [hpre a ha]
  have hwritten : (fetchLoop cs FILE_START (pre ++ r :: rest)).written
      = pre.map Response.body := by
    rw [iw, htail, hfilter]
    simp
  rw [get_remote_file_absent_ok url cs refresh _ houtcome]
  rw [hwritten]
  exact ⟨rfl, rfl⟩

/-- Witness for C5: two 206 chunks then the terminal 416. -/
theorem C5_roundtrip_witness :
    (get_remote_file "http://host/f" 1024 CacheFile.absent false
        ([⟨206, "ab"⟩, ⟨206, "cd"⟩] ++ (⟨416, "tail"⟩ : Response) :: [])).cacheAfter
      = CacheFile.complete (String.join ([⟨206, "ab"⟩, ⟨206, "cd"⟩].map Response.body)) :=
  (C5_roundtrip "http://host/f" 1024 false [⟨206, "ab"⟩, ⟨206, "cd"⟩] []
    ⟨416, "tail"⟩ (by decide) rfl).2

/-- C6: for chunk size at least 1024 the k-th range request is issued at
offset k * (chunk_size + 1) starting from 0, carries the header
Range: bytes=offset-(offset + chunk_size), and consecutive offsets advance by
exactly chunk_size + 1, so consecutive inclusive windows are contiguous and
non-overlapping. -/
theorem C6_range_windows (cs : Nat) (_hcs : 1024 ≤ cs) (rs : List Response) :
    (fetchLoop cs FILE_START rs).offsets
      = (List.range (fetchLoop cs FILE_START rs).offsets.length).map
          (fun k => k * (cs + 1))
    ∧ (fetchLoop cs FILE_START rs).headers
      = (fetchLoop cs FILE_START rs).offsets.map
          (fun o => (RANGE_HEADER, "bytes=" ++ toString o ++ "-" ++ toString (o + cs)))
    ∧ List.Chain' (fun a b => b = a + (cs + 1)) (fetchLoop cs FILE_START rs).offsets := by
  refine ⟨?_, ?_, ?_⟩
  · have h := fetchLoop_offsets_arith cs rs FILE_START
    simpa [FILE_START] using h
  · exact fetchLoop_headers_eq cs rs FILE_START
  · rw [fetchLoop_offsets_arith cs rs FILE_START]
    exact chain_arith cs FILE_START _

/-- Witness for C6 at chunk size 1024 on a concrete response list. -/
theorem C6_range_windows_witness :
    1024 ≤ 1024
    ∧ List.Chain' (fun a b => b = a + (1024 + 1))
        (fetchLoop 1024 FILE_START [⟨206, "x"⟩, ⟨206, "y"⟩, ⟨416, ""⟩]).offsets :=
  ⟨by decide, (C6_range_windows 1024 (by decide) [⟨206, "x"⟩, ⟨206, "y"⟩, ⟨416, ""⟩]).2.2⟩

/-- C8: a range request answered with the terminal range-not-satisfiable
status, arriving after responses on which the loop advanced, ends the fetch
loop normally; its body is never written (only the bodies of the earlier 206
responses are) and it is the last request issued. -/
theorem C8_terminal_no_chunk (cs : Nat) (pre rest : List Response) (r : Response)
    (hpre : ∀ x ∈ pre, advances x = true)
    (hr : r.status = range_not_satisfiable) :
    (fetchLoop cs FILE_START (pre ++ r :: rest)).outcome = FetchOutcome.ok
    ∧ (fetchLoop cs FILE_START (pre ++ r :: rest)).written
        = (pre.filter (fun x => x.status == SUCCESS_STATUS)).map Response.body
    ∧ (fetchLoop cs FILE_START (pre ++ r :: rest)).offsets.length = pre.length + 1 := by
  obtain ⟨io, iw, iout⟩ := fetchLoop_append cs (r :: rest) pre FILE_START hpre
  have htail : fetchLoop cs (FILE_START + pre.length * (cs + 1)) (r :: rest)
      = ⟨[FILE_START + pre.length * (cs + 1)],
         [make_range_header (FILE_START + pre.length * (cs + 1)) cs], [],
         FetchOutcome.ok⟩ := by
    simp only [fetchLoop, if_pos hr]
  refine ⟨?_, ?_, ?_⟩
  · rw [iout, htail]
  · rw [iw, htail]
    simp
  · rw [io, htail]
    simp

/-- Witness for C8: the terminal 416 right after one 206 chunk; its body is
not among the written chunks. -/
theorem C8_terminal_no_chunk_witness :
    (fetchLoop 1024 FILE_START
        ([⟨206, "aa"⟩] ++ (⟨416, "ignored"⟩ : Response) :: [])).written
      = ([⟨206, "aa"⟩].filter
          (fun x => x.status == SUCCESS_STATUS)).map Response.body :=
  (C8_terminal_no_chunk 1024 [⟨206, "aa"⟩] [] ⟨416, "ignored"⟩ (by decide) rfl).2.1

/-! ## Properties of the cache and the get orchestration -/

/-- A cache hit: with a file present at the cache path and no forced refresh,
get_remote_file returns at once with the computed file name, issuing no
request and leaving the file untouched (src/n_largest.py lines 148-149). -/
theorem get_remote_file_hit (url : String) (cs : Nat) (cache : CacheFile)
    (resp : List Response) (h : cache.existsOnDisk = true) :
    get_remote_file url cs cache false resp
      = ⟨cache, [], [], Except.ok (cacheFileName url)⟩ := by
  simp [get_remote_file, h]

/-- Shape of a successful get run: some complete cache content was read, the
selection succeeded on it, the output is the selected ids, and the final
cache state is the complete entry, or absent when no_cache was passed. -/
theorem get_ok_shape (nc refresh : Bool) (cs : Nat) (url : String) (n : Nat)
    (cache : CacheFile) (rs : List Response)
    (hok : (get nc refresh cs url n cache rs).outcome = Except.ok ()) :
    ∃ content recs,
      (get nc refresh cs url n cache rs).output = print_n_largest recs
      ∧ process_file content n = Except.ok recs
      ∧ (get_remote_file url cs cache refresh rs).cacheAfter = CacheFile.complete content
      ∧ (get nc refresh cs url n cache rs).cacheAfter
          = (if nc then CacheFile.absent else CacheFile.complete content) := by
  rcases hout : (get_remote_file url cs cache refresh rs).outcome with e | fn
  · exfalso
    simp [get, hout] at hok
  · rcases hread : (get_remote_file url cs cache refresh rs).cacheAfter.read? with _ | content
    · exfalso
      simp [get, hout, hread] at hok
    · have hcomplete : (get_remote_file url cs cache refresh rs).cacheAfter
          = CacheFile.complete content := by
        rcases hca : (get_remote_file url cs cache refresh rs).cacheAfter with _ | c | w
        · rw [hca] at hread
          exact absurd hread (by simp [CacheFile.read?])
        · rw [hca] at hread
          simp only [CacheFile.read?, Option.some.injEq] at hread
          rw [hread]
        · rw [hca] at hread
          exact absurd hread (by simp [CacheFile.read?])
      rcases hproc : process_file content n with pe | recs
      · exfalso
        simp [get, hout, hread, hproc] at hok
      · refine ⟨content, recs, ?_, hproc, hcomplete, ?_⟩
        · simp only [get, hout, hread, hproc]
        · simp only [get, hout, hread, hproc]
          rw [hcomplete]

/-- C3: with an entry present at the cache path and no forced refresh,
get_remote_file issues no request, returns the computed file name and leaves
the entry untouched; the output of the get command over such an entry does
not depend on the responses the network would give; and a re-run over the
entry left by a previous successful non-no-cache run echoes exactly the
output of that previous run, with zero requests. -/
theorem C3_cache_hit_idempotent (url : String) (cs n : Nat) (cache : CacheFile)
    (resp resp1 resp2 : List Response) (h : cache.existsOnDisk = true) :
    (get_remote_file url cs cache false resp).offsets = []
    ∧ (get_remote_file url cs cache false resp).outcome = Except.ok (cacheFileName url)
    ∧ (get_remote_file url cs cache false resp).cacheAfter = cache
    ∧ (get false false cs url n cache resp1).output
        = (get false false cs url n cache resp2).output
    ∧ (∀ (cache0 : CacheFile) (rs1 rs2 : List Response) (refresh : Bool),
        (get false refresh cs url n cache0 rs1).outcome = Except.ok () →
        (get false false cs url n
            (get false refresh cs url n cache0 rs1).cacheAfter rs2).output
          = (get false refresh cs url n cache0 rs1).output
        ∧ (get false false cs url n
            (get false refresh cs url n cache0 rs1).cacheAfter rs2).offsets = []) := by
  have hhit := get_remote_file_hit url cs cache resp h
  have hhit1 := get_remote_file_hit url cs cache resp1 h
  have hhit2 := get_remote_file_hit url cs cache resp2 h
  refine ⟨by rw [hhit], by rw [hhit], by rw [hhit], ?_, ?_⟩
  · simp only [get, hhit1, hhit2]
  · intro cache0 rs1 rs2 refresh hok
    obtain ⟨content, recs, hout1, hproc, _, hca1⟩ :=
      get_ok_shape false refresh cs url n cache0 rs1 hok
    have hca1' : (get false refresh cs url n cache0 rs1).cacheAfter
        = CacheFile.complete content := by simpa using hca1
    rw [hca1']
    have hhit3 := get_remote_file_hit url cs (CacheFile.complete content) rs2 rfl
    constructor
    · rw [hout1]
      simp only [get, hhit3, CacheFile.read?, hproc]
    · simp only [get, hhit3, CacheFile.read?, hproc]

/-- Witness for C3 on a concrete complete cache entry. -/
theorem C3_cache_hit_idempotent_witness :
    (CacheFile.complete "a 5\n").existsOnDisk = true
    ∧ (get_remote_file "http://host/f" 1024 (CacheFile.complete "a 5\n") false
        [⟨206, "zz"⟩]).offsets = [] :=
  ⟨rfl, (C3_cache_hit_idempotent "http://host/f" 1024 1 (CacheFile.complete "a 5\n")
    [⟨206, "zz"⟩] [] [] rfl).1⟩

/-- C2 (code bug): the claim that an aborted fetch leaves no file visible at
the cache target path fails on the code.  gzip.open creates the file at
cache_root / sha256(url).gz at src/n_largest.py line 150, before the first
request, and the raise paths of lines 157-160 neither delete it nor divert
it.  At the concrete failing input (absent cache entry, first range response
200 OK) get_remote_file raises the unsupported-range error yet a file remains
at the target path; a later non-refresh run then treats the leftover as a
cache hit, issues no request, and fails reading it. -/
theorem C2_partial_cache_left_behind :
    (get_remote_file "http://host/data.txt" 256000 CacheFile.absent false
        [⟨200, "body"⟩]).outcome = Except.error FetchError.unsupportedRange
    ∧ (get_remote_file "http://host/data.txt" 256000 CacheFile.absent false
        [⟨200, "body"⟩]).cacheAfter = CacheFile.leftover []
    ∧ (get_remote_file "http://host/data.txt" 256000 CacheFile.absent false
        [⟨200, "body"⟩]).cacheAfter.existsOnDisk = true
    ∧ (get false false 256000 "http://host/data.txt" 2
        (CacheFile.leftover []) []).offsets = []
    ∧ (get false false 256000 "http://host/data.txt" 2
        (CacheFile.leftover []) []).outcome = Except.error GetErr.readFailed :=
  ⟨rfl, rfl, rfl, rfl, rfl⟩

/-- C9: with --no-cache the run behaves exactly as the caching run up to and
including the emitted output and the termination result; the cache entry is
removed only on normal termination after the ids were emitted, while any
error leaves the cache exactly as without the deletion step, and in
particular a selection (parse) failure leaves a file present at the cache
path for retry. -/
theorem C9_no_cache_after_emission (refresh : Bool) (cs : Nat) (url : String)
    (n : Nat) (cache : CacheFile) (rs : List Response) :
    (get true refresh cs url n cache rs).output
        = (get false refresh cs url n cache rs).output
    ∧ (get true refresh cs url n cache rs).outcome
        = (get false refresh cs url n cache rs).outcome
    ∧ ((get true refresh cs url n cache rs).outcome = Except.ok () →
        (get true refresh cs url n cache rs).cacheAfter = CacheFile.absent)
    ∧ (∀ e, (get true refresh cs url n cache rs).outcome = Except.error e →
        (get true refresh cs url n cache rs).cacheAfter
          = (get false refresh cs url n cache rs).cacheAfter)
    ∧ (∀ pe, (get true refresh cs url n cache rs).outcome
          = Except.error (GetErr.parse pe) →
        (get true refresh cs url n cache rs).cacheAfter.existsOnDisk = true) := by
  rcases hout : (get_remote_file url cs cache refresh rs).outcome with e | fn
  · refine ⟨by simp only [get, hout], by simp only [get, hout], ?_, ?_, ?_⟩
    · intro hok
      exfalso
      simp [get, hout] at hok
    · intro e2 _
      simp only [get, hout]
    · intro pe hpe
      exfalso
      simp [get, hout] at hpe
  · rcases hread : (get_remote_file url cs cache refresh rs).cacheAfter.read? with _ | content
    · refine ⟨by simp only [get, hout, hread], by simp only [get, hout, hread], ?_, ?_, ?_⟩
      · intro hok
        exfalso
        simp [get, hout, hread] at hok
      · intro e2 _
        simp only [get, hout, hread]
      · intro pe hpe
        exfalso
        simp [get, hout, hread] at hpe
    · have hcomplete : (get_remote_file url cs cache refresh rs).cacheAfter
          = CacheFile.complete content := by
        rcases hca : (get_remote_file url cs cache refresh rs).cacheAfter with _ | c | w
        · rw [hca] at hread
          exact absurd hread (by simp [CacheFile.read?])
        · rw [hca] at hread
          simp only [CacheFile.read?, Option.some.injEq] at hread
          rw [hread]
        · rw [hca] at hread
          exact absurd hread (by simp [CacheFile.read?])
      rcases hproc : process_file content n with pe0 | recs
      · refine ⟨by simp only [get, hout, hread, hproc],
          by simp only [get, hout, hread, hproc], ?_, ?_, ?_⟩
        · intro hok
          exfalso
          simp [get, hout, hread, hproc] at hok
        · intro e2 _
          simp only [get, hout, hread, hproc]
        · intro pe hpe
          simp only [get, hout, hread, hproc]
          rw [hcomplete]
          rfl
      · refine ⟨by simp only [get, hout, hread, hproc],
          by simp only [get, hout, hread, hproc], ?_, ?_, ?_⟩
        · intro _
          simp [get, hout, hread, hproc]
        · intro e2 hcontra
          exfalso
          simp [get, hout, hread, hproc] at hcontra
        · intro pe hpe
          exfalso
          simp [get, hout, hread, hproc] at hpe

/-- Witness for C9: a concrete successful no-cache run removes the entry. -/
theorem C9_no_cache_after_emission_witness :
    (get true false 1024 "u" 1 (CacheFile.complete "a 5\n") []).cacheAfter
      = CacheFile.absent :=
  (C9_no_cache_after_emission false 1024 "u" 1 (CacheFile.complete "a 5\n") []).2.2.1 rfl

/-- C10: a fetch whose very first range request is answered with the terminal
range-not-satisfiable status still creates, flushes and returns a complete
empty cache file at the path for the url after exactly one request at offset
FILE_START; that empty file is a valid cache entry, so every later
non-refresh get over it is a cache hit issuing no request, terminating
normally, and printing no output lines. -/
theorem C10_empty_terminal_fetch (url : String) (cs n : Nat) (r : Response)
    (rest rs2 : List Response) (noCache : Bool)
    (h : r.status = range_not_satisfiable) :
    (get_remote_file url cs CacheFile.absent false (r :: rest)).outcome
        = Except.ok (cacheFileName url)
    ∧ (get_remote_file url cs CacheFile.absent false (r :: rest)).cacheAfter
        = CacheFile.complete ""
    ∧ (get_remote_file url cs CacheFile.absent false (r :: rest)).offsets = [FILE_START]
    ∧ (get noCache false cs url n (CacheFile.complete "") rs2).offsets = []
    ∧ (get noCache false cs url n (CacheFile.complete "") rs2).output = []
    ∧ (get noCache false cs url n (CacheFile.complete "") rs2).outcome
        = Except.ok () := by
  have hloop : fetchLoop cs FILE_START (r :: rest)
      = ⟨[FILE_START], [make_range_header FILE_START cs], [], FetchOutcome.ok⟩ := by
    simp only [fetchLoop, if_pos h]
  have hok : (fetchLoop cs FILE_START (r :: rest)).outcome = FetchOutcome.ok := by
    rw [hloop]
  have hrf := get_remote_file_absent_ok url cs false (r :: rest) hok
  rw [hloop] at hrf
  have hempty : process_file "" n = Except.ok [] := by
    show Except.ok (nlargest n ([] : List Record)) = Except.ok []
    rw [nlargest, show sortDesc [] = [] from rfl, List.take_nil]
  have hhit := get_remote_file_hit url cs (CacheFile.complete "") rs2 rfl
  refine ⟨by rw [hrf], by rw [hrf]; rfl, by rw [hrf], ?_, ?_, ?_⟩
  · simp only [get, hhit, CacheFile.read?, hempty]
  · simp [get, hhit, CacheFile.read?, hempty, print_n_largest]
  · simp only [get, hhit, CacheFile.read?, hempty]

/-- Witness for C10: the terminal status on the very first response. -/
theorem C10_empty_terminal_fetch_witness :
    (get_remote_file "http://host/empty" 1024 CacheFile.absent false
        [⟨416, "x"⟩]).cacheAfter = CacheFile.complete "" :=
  (C10_empty_terminal_fetch "http://host/empty" 1024 1 ⟨416, "x"⟩ [] [] false rfl).2.1

/-! ## The record decoder (RecordStream) -/

/-- C7 counterexample: on the line with the three tokens a, 5 and 6 the first
two tokens are an id and an integer, so the claim predicts the record (a, 5),
yet the decoder fails: the for pattern of src/n_largest.py line 132 unpacks
exactly two tokens and raises ValueError on three. -/
theorem C7_counterexample :
    reSplitWs (pyStrip "a 5 6") = ["a", "5", "6"]
    ∧ pyInt? "5" = some 5
    ∧ id_number_tuple_generator "a 5 6\n"
        = Except.error (ParseErr.badUnpack ["a", "5", "6"]) :=
  ⟨rfl, rfl, rfl⟩

/-- C7 amended: the decoder tokenizes each line on runs of whitespace and
succeeds exactly when the line has exactly two tokens whose second parses as
an integer, in which case it produces the pair of the two tokens with the
second parsed; a line with any other token count, including more than two,
fails. -/
theorem C7_decoder_amended (line : String) :
    ((∃ r, decodeRecord (reSplitWs (pyStrip line)) = Except.ok r)
      ↔ ((reSplitWs (pyStrip line)).length = 2
          ∧ ∃ v, pyInt? ((reSplitWs (pyStrip line)).getD 1 "") = some v))
    ∧ (∀ a b v, reSplitWs (pyStrip line) = [a, b] → pyInt? b = some v →
        decodeRecord (reSplitWs (pyStrip line)) = Except.ok (a, v)) := by
  constructor
  · generalize reSplitWs (pyStrip line) = ts
    rcases ts with _ | ⟨a, _ | ⟨b, _ | ⟨c, rest⟩⟩⟩
    · simp [decodeRecord]
    · simp [decodeRecord]
    · cases hv : pyInt? b with
      | none => simp [decodeRecord, hv, List.getD]
      | some v => simp [decodeRecord, hv, List.getD]
    · simp [decodeRecord]
  · intro a b v hts hv
    rw [hts]
    simp [decodeRecord, hv]

/-- Witness for C7 amended on the concrete line with tokens x and 7. -/
theorem C7_decoder_amended_witness :
    decodeRecord (reSplitWs (pyStrip "x 7")) = Except.ok ("x", 7) :=
  (C7_decoder_amended "x 7").2 "x" "7" 7 rfl rfl

end NLargest
